import Mathlib

/-!
Verification development for `topicssearch.py`: an indexing/search pipeline
that asks the XPLR prediction service for a title and ranked topic labels
per URL, stores the results as documents in a whoosh full-text index, and
answers free-text queries on the topics field.

The Python source is embedded shallowly: pure computations become Lean
functions, the external boundaries (HTTP transport, `json.loads`, the
whoosh index store) are modelled by explicit parameters and small state
types, exceptions become explicit result constructors.
-/

namespace TopicsSearch

/-- A JSON value as produced by `json.loads` (numbers restricted to
integers, which is all the predictor protocol uses). -/
inductive JVal where
  | num (n : Int)
  | str (s : String)
  | bool (b : Bool)
  | null
  | arr (xs : List JVal)
  | obj (fields : List (String × JVal))

/-- Python subscript `j[k]` on a parsed JSON value: a `KeyError` when the
key is missing, a `TypeError` when the value is not a dict. -/
def JVal.getKey (j : JVal) (k : String) : Except String JVal :=
  match j with
  | .obj fields =>
    match fields.lookup k with
    | some v => Except.ok v
    | none => Except.error ("KeyError: " ++ k)
  | _ => Except.error ("TypeError: value has no key " ++ k)

/-- Cause attached to the `PredictFailed` exception, distinguished by the
raise site in `get_prediction`. -/
inductive PredFailCause where
  | transport (msg : String)
  | encoding
  | statusCode (code : JVal)

/-- Result of one call to `get_prediction`: the returned
`(title, topics)` pair, a raised `PredictFailed`, or any other exception
escaping the function. -/
inductive PredResult where
  | ok (title : String) (topics : List String)
  | predictFailed (cause : PredFailCause)
  | uncaught (exn : String)

/-- What `json.loads` does to the response bytes: `UnicodeDecodeError`
when the byte string is not decodable text, `ValueError` when it decodes
as text but is not valid JSON, otherwise the parsed value. -/
inductive JsonLoadResult where
  | unicodeError
  | valueError
  | ok (j : JVal)

/-- Outcome of the HTTP exchange in `get_prediction`: the two caught
transport exceptions, or a response body classified by `json.loads`. -/
inductive XplrHttp where
  | httpError (msg : String)
  | badStatusLine (msg : String)
  | body (load : JsonLoadResult)

/-- First template piece of the posted JSON, up to the `%d` hole
(verbatim from the triple-quoted literal, including its indentation). -/
def dataPrefix : String :=
  "\x7b\"parameters\":\x7b\n                     \"labels\":true,\n                     \"topics_limit\":"

/-- Middle template piece, between the `%d` and `%s` holes. -/
def dataMid : String :=
  ",\n                     \"qualifiers\":true,\n                     \"filters_in\":[\"content_extraction\"],\n                     \"filters_out\":[\"content\",\"title\"]\n                  \x7d,\n                  \"document\":\x7b\"uri\":\""

/-- Last template piece, after the `%s` hole. -/
def dataSuffix : String :=
  "\"\x7d\x7d\n            "

/-- The request body posted to the predictor: the fixed template with
`topics_count` and `url` substituted by `%` string interpolation, with no
escaping of either. -/
def mkRequestData (topics_count : Nat) (url : String) : String :=
  dataPrefix ++ toString topics_count ++ dataMid ++ url ++ dataSuffix

/-- `topic['labels'][0]['label']` for one topic entry, as an `Except`
whose error is the escaping Python exception; the label must be text for
the later `u" / ".join` and whoosh storage to accept it. -/
def extractLabelStr (topic : JVal) : Except String String := do
  let labels ← topic.getKey "labels"
  match labels with
  | .arr (l0 :: _) =>
    match (← l0.getKey "label") with
    | .str s => Except.ok s
    | _ => Except.error "TypeError: label is not text"
  | .arr [] => Except.error "IndexError: list index out of range"
  | _ => Except.error "TypeError: labels is not a list"

/-- The list comprehension
`[topic['labels'][0]['label'] for topic in ...]`: left to right, stopping
at the first escaping exception. -/
def extractLabels : List JVal → Except String (List String)
  | [] => Except.ok []
  | t :: ts => do
    let l ← extractLabelStr t
    let ls ← extractLabels ts
    Except.ok (l :: ls)

/-- The status check and field extraction of `get_prediction` on a parsed
response: code 200 yields `(title, topics)` with the first label of every
topic entry, any other code raises `PredictFailed` carrying the code; a
missing or ill-typed field raises an exception that is not caught. -/
def extractPrediction (j : JVal) : PredResult :=
  match j.getKey "status" >>= (fun s => s.getKey "code") with
  | .error e => .uncaught e
  | .ok code =>
    match code with
    | .num n =>
      if n = 200 then
        match j.getKey "body" >>= (fun b => b.getKey "extracted_title") with
        | .error e => .uncaught e
        | .ok (.str title) =>
          match j.getKey "body" >>= (fun b => b.getKey "topics") with
          | .error e => .uncaught e
          | .ok (.arr entries) =>
            match extractLabels entries with
            | .error e => .uncaught e
            | .ok labels => .ok title labels
          | .ok _ => .uncaught "TypeError: topics is not a list"
        | .ok _ => .uncaught "TypeError: extracted_title is not text"
      else .predictFailed (.statusCode (.num n))
    | c => .predictFailed (.statusCode c)

/-- `get_prediction url topics_count`: posts `mkRequestData` and handles
the response. `net` models the network: it maps the posted body to the
HTTP outcome. `urllib2.HTTPError` and `httplib.BadStatusLine` are caught
and re-raised as `PredictFailed`; around `json.loads` only
`UnicodeDecodeError` is caught (as `"Wrong Encoding"`), so a `ValueError`
from invalid JSON text escapes. -/
def get_prediction (net : String → XplrHttp) (url : String)
    (topics_count : Nat) : PredResult :=
  match net (mkRequestData topics_count url) with
  | .httpError e => .predictFailed (.transport e)
  | .badStatusLine e => .predictFailed (.transport e)
  | .body .unicodeError => .predictFailed .encoding
  | .body .valueError => .uncaught "ValueError: No JSON object could be decoded"
  | .body (.ok j) => extractPrediction j

/-- A document as stored under the whoosh schema: `uri` (stored ID),
`title` (stored text), `topics` (stored, stemming-analyzed text). -/
structure Doc where
  uri : String
  title : String
  topics : String
deriving DecidableEq

/-- The filesystem state relevant to the program: the index directory is
absent (`none`) or holds a committed generation of documents. -/
structure FS where
  indexDir : Option (List Doc)
deriving DecidableEq

/-- `shutil.rmtree INDEX_DIR`: an `OSError` when the directory does not
exist, otherwise the directory is gone. -/
def rmtree (fs : FS) : Except String FS :=
  match fs.indexDir with
  | none => Except.error "OSError: no such file or directory"
  | some _ => Except.ok { indexDir := none }

/-- `flush`: `rmtree` wrapped in a bare try/except that swallows every
exception, so a missing directory is not an error. -/
def flush (fs : FS) : FS :=
  match rmtree fs with
  | .ok fs2 => fs2
  | .error _ => fs

/-- Python `url.strip()`: removes leading and trailing whitespace. -/
def pyStrip (s : String) : String :=
  ⟨((s.data.dropWhile Char.isWhitespace).reverse.dropWhile Char.isWhitespace).reverse⟩

/-- `add_document writer url title topics`: builds the stored document,
joining the topic labels with the literal `" / "` in the given order. -/
def add_document (uri : String) (title : String) (topics : List String) : Doc :=
  { uri := uri, title := title, topics := String.intercalate " / " topics }

/-- Result of the per-URL loop body of `index`: the documents staged into
the write session in source order, the `PredictFailed` causes reported
(and skipped) in order, and the first exception other than
`PredictFailed` to escape the loop, if any. -/
structure LoopResult where
  docs : List Doc
  reported : List PredFailCause
  err : Option String

/-- The per-URL loop of `index`: each line is stripped, predicted
(`topics_count = 5`), and on success staged via `add_document`;
`PredictFailed` is caught, reported and skipped; any other exception
stops the loop and escapes. -/
def processUrls (net : String → XplrHttp) : List String → LoopResult
  | [] => { docs := [], reported := [], err := none }
  | url :: rest =>
    match get_prediction net (pyStrip url) 5 with
    | .ok title topics =>
      let r := processUrls net rest
      { docs := add_document (pyStrip url) title topics :: r.docs,
        reported := r.reported, err := r.err }
    | .predictFailed c =>
      let r := processUrls net rest
      { docs := r.docs, reported := c :: r.reported, err := r.err }
    | .uncaught e => { docs := [], reported := [], err := some e }

/-- Outcome of one `index` run: the resulting store state, how many times
`writer.commit()` was called, the reported per-URL failures, and the
exception propagating out of `index`, if any. -/
structure IndexRun where
  store : FS
  commits : Nat
  reported : List PredFailCause
  error : Option String

/-- `index sourcefile`: makes the index directory if absent, then calls
whoosh `create_in` — which per the whoosh documentation creates a NEW
empty index in the directory, replacing any existing one — opens one
writer, runs the per-URL loop, and commits in a `finally`, so the commit
is attempted exactly once whenever the store was opened, on every exit
path of the loop. `createFails` and `commitFails` model the store's own
failure modes of `create_in` and `writer.commit()`. -/
def index (net : String → XplrHttp) (createFails commitFails : Bool)
    (fs : FS) (urls : List String) : IndexRun :=
  if createFails then
    { store := fs, commits := 0, reported := [], error := some "create_in failed" }
  else
    let r := processUrls net urls
    if commitFails then
      { store := { indexDir := some [] }, commits := 1, reported := r.reported,
        error := some "commit failed" }
    else
      { store := { indexDir := some r.docs }, commits := 1, reported := r.reported,
        error := r.err }

/-- Modelled from the spec: the external whoosh
`searcher.search(query, limit)` returns the matching documents of the
committed generation in the store's relevance-ranked order (an arbitrary
reordering `rank` of the matches), truncated when a limit is given. -/
def whooshSearch (rank : List Doc → List Doc) (hit : Doc → Bool)
    (docs : List Doc) (limit : Option Nat) : List Doc :=
  let hits := rank (docs.filter hit)
  match limit with
  | none => hits
  | some n => hits.take n

/-- `topicssearch q`: opens the index directory (an error when absent),
parses `q` against the `topics` field (`parseQ` returns `none` on a
syntactically invalid query, which is a fatal parse error), searches with
`limit=None`, and yields the `(uri, title, topics)` tuple of every result
in ranked order. -/
def topicssearch (parseQ : String → Option (Doc → Bool))
    (rank : List Doc → List Doc) (fs : FS) (q : String) :
    Except String (List (String × String × String)) :=
  match fs.indexDir with
  | none => Except.error "whoosh.index.EmptyIndexError"
  | some docs =>
    match parseQ q with
    | none => Except.error "QueryParserError"
    | some hit =>
      Except.ok ((whooshSearch rank hit docs none).map
        (fun d => (d.uri, d.title, d.topics)))

/-- No URL of the list makes the loop body raise anything other than
`PredictFailed`: every prediction either succeeds or fails as a reported
`PredictFailed`. -/
def NoUncaught (net : String → XplrHttp) (urls : List String) : Prop :=
  ∀ u ∈ urls, ∀ e, get_prediction net (pyStrip u) 5 ≠ .uncaught e

/-- The URLs of the list whose prediction succeeds. -/
def successCount (net : String → XplrHttp) (urls : List String) : Nat :=
  (urls.filter (fun u =>
    match get_prediction net (pyStrip u) 5 with
    | .ok _ _ => true
    | _ => false)).length

/-- A predictor topic entry per the wire contract: an object whose
`labels` list carries one ranked label. -/
def mkEntry (l : String) : JVal :=
  .obj [("labels", .arr [.obj [("label", .str l)]])]

/-- A well-formed predictor response body per the wire contract:
`status.code`, `body.extracted_title`, `body.topics`. -/
def mkResponse (c : Int) (t : String) (entries : List JVal) : JVal :=
  .obj [("status", .obj [("code", .num c)]),
        ("body", .obj [("extracted_title", .str t), ("topics", .arr entries)])]

/-! A small JSON syntax checker (RFC 8259 grammar), used to state that the
interpolated request body can fail to be valid JSON. -/

/-- Drop JSON insignificant whitespace. -/
def skipWs : List Char → List Char
  | c :: cs =>
    if c = ' ' ∨ c = '\n' ∨ c = '\t' ∨ c = '\r' then skipWs cs else c :: cs
  | [] => []

/-- Drop a run of ASCII digits. -/
def dropDigits : List Char → List Char
  | c :: cs => if c.isDigit then dropDigits cs else c :: cs
  | [] => []

/-- Require one or more ASCII digits. -/
def parseDigits : List Char → Option (List Char)
  | c :: cs => if c.isDigit then some (dropDigits cs) else none
  | [] => none

/-- Optional fraction part `. digits`. -/
def parseFrac : List Char → Option (List Char)
  | '.' :: t => parseDigits t
  | cs => some cs

/-- Optional exponent part `(e|E) (+|-)? digits`. -/
def parseExp : List Char → Option (List Char)
  | c :: t =>
    if c = 'e' ∨ c = 'E' then
      match t with
      | s :: t2 => if s = '+' ∨ s = '-' then parseDigits t2 else parseDigits (s :: t2)
      | [] => none
    else some (c :: t)
  | [] => some []

/-- A JSON number: optional minus, integer part without leading zeros,
optional fraction and exponent. -/
def parseNumber (cs : List Char) : Option (List Char) := do
  let cs := match cs with | '-' :: t => t | _ => cs
  let cs ← match cs with
    | '0' :: t => some t
    | c :: t => if c.isDigit ∧ c ≠ '0' then some (dropDigits t) else none
    | [] => none
  let cs ← parseFrac cs
  parseExp cs

/-- ASCII hexadecimal digit. -/
def isHexDig (c : Char) : Bool :=
  c.isDigit ∨ ('a' ≤ c ∧ c ≤ 'f') ∨ ('A' ≤ c ∧ c ≤ 'F')

/-- Require an exact run of characters. -/
def expectChars : List Char → List Char → Option (List Char)
  | [], cs => some cs
  | e :: es, c :: cs => if c = e then expectChars es cs else none
  | _ :: _, [] => none

mutual

/-- The rest of a JSON string after its opening quote. -/
def parseStringRest : Nat → List Char → Option (List Char)
  | 0, _ => none
  | _, [] => none
  | fuel + 1, c :: cs =>
    if c = '"' then some cs
    else if c = '\\' then
      match cs with
      | [] => none
      | e :: cs2 =>
        if e = '"' ∨ e = '\\' ∨ e = '/' ∨ e = 'b' ∨ e = 'f' ∨ e = 'n' ∨
            e = 'r' ∨ e = 't' then
          parseStringRest fuel cs2
        else if e = 'u' then
          match cs2 with
          | a :: b :: c2 :: d :: cs3 =>
            if isHexDig a ∧ isHexDig b ∧ isHexDig c2 ∧ isHexDig d then
              parseStringRest fuel cs3
            else none
          | _ => none
        else none
    else if c.toNat < 32 then none
    else parseStringRest fuel cs

/-- One JSON value, leading whitespace allowed. -/
def parseJVal : Nat → List Char → Option (List Char)
  | 0, _ => none
  | fuel + 1, cs =>
    match skipWs cs with
    | [] => none
    | c :: t =>
      if c = '"' then parseStringRest fuel t
      else if c = '\x7b' then parseMembers fuel t
      else if c = '[' then parseItems fuel t
      else if c = 't' then expectChars ['r', 'u', 'e'] t
      else if c = 'f' then expectChars ['a', 'l', 's', 'e'] t
      else if c = 'n' then expectChars ['u', 'l', 'l'] t
      else parseNumber (c :: t)

/-- Object members after the opening brace, up to the closing brace. -/
def parseMembers : Nat → List Char → Option (List Char)
  | 0, _ => none
  | fuel + 1, cs =>
    match skipWs cs with
    | '\x7d' :: t => some t
    | '"' :: t => do
      let r1 ← parseStringRest fuel t
      let r2 ← match skipWs r1 with
        | ':' :: t2 => parseJVal fuel t2
        | _ => none
      match skipWs r2 with
      | ',' :: t3 =>
        match skipWs t3 with
        | '"' :: t4 => parseMembers fuel ('"' :: t4)
        | _ => none
      | '\x7d' :: t3 => some t3
      | _ => none
    | _ => none

/-- Array items after the opening bracket, up to the closing bracket. -/
def parseItems : Nat → List Char → Option (List Char)
  | 0, _ => none
  | fuel + 1, cs =>
    match skipWs cs with
    | ']' :: t => some t
    | _ => do
      let r1 ← parseJVal fuel cs
      match skipWs r1 with
      | ',' :: t2 => parseItems fuel t2
      | ']' :: t2 => some t2
      | _ => none

end

/-- A string is valid JSON: exactly one value with only trailing
whitespace after it. -/
def jsonValid (s : String) : Bool :=
  let cs := s.toList
  match parseJVal (4 * cs.length + 8) cs with
  | some rest => (skipWs rest).isEmpty
  | none => false

/-- Discriminates the results that raise `PredictFailed`. -/
def PredResult.raisesPredictFailed : PredResult → Bool
  | .predictFailed _ => true
  | _ => false

/-! Concrete network and store fixtures used to instantiate the theorems. -/

/-- A predictor that always answers 200 with title `"Breaking News"` and
topics `Politics`, `Economy`. -/
def netGood : String → XplrHttp :=
  fun _ => .body (.ok (mkResponse 200 "Breaking News"
    [mkEntry "Politics", mkEntry "Economy"]))

/-- A predictor where every request fails at transport level. -/
def net404 : String → XplrHttp := fun _ => .httpError "HTTP Error 404: Not Found"

/-- A predictor answering an otherwise well-formed body with code 403. -/
def net403 : String → XplrHttp := fun _ => .body (.ok (mkResponse 403 "Forbidden" []))

/-- A predictor answering a 200 response that lacks the `topics` field. -/
def netMissingTopics : String → XplrHttp :=
  fun _ => .body (.ok (JVal.obj [("status", JVal.obj [("code", JVal.num 200)]),
    ("body", JVal.obj [("extracted_title", JVal.str "T")])]))

/-- A document left by an earlier committed generation. -/
def priorDoc : Doc := ⟨"http://old", "Old Title", "OldTopic"⟩

/-- A query-parser fixture: every query is syntactically valid and
matches no document. -/
def parseNoneQ : String → Option (Doc → Bool) := fun _ => some (fun _ => false)

/-! Helper lemmas about the per-URL loop. -/

/-- Splitting the loop at a prefix that raises nothing but
`PredictFailed`. -/
theorem processUrls_append (net : String → XplrHttp) (pre rest : List String)
    (h : ∀ u ∈ pre, ∀ e, get_prediction net (pyStrip u) 5 ≠ .uncaught e) :
    processUrls net (pre ++ rest) =
      { docs := (processUrls net pre).docs ++ (processUrls net rest).docs,
        reported := (processUrls net pre).reported ++ (processUrls net rest).reported,
        err := (processUrls net rest).err } := by
  induction pre with
  | nil => simp [processUrls]
  | cons u us ih =>
    have hu := h u (List.mem_cons_self u us)
    have ih2 := ih (fun v hv e => h v (List.mem_cons_of_mem u hv) e)
    cases hg : get_prediction net (pyStrip u) 5 with
    | ok t ts => simp [processUrls, hg, ih2]
    | predictFailed c => simp [processUrls, hg, ih2]
    | uncaught e => exact absurd hg (hu e)

/-- A loop over URLs none of which raises an uncaught exception finishes
with no escaping exception. -/
theorem processUrls_err_none (net : String → XplrHttp) (urls : List String)
    (h : NoUncaught net urls) : (processUrls net urls).err = none := by
  induction urls with
  | nil => rfl
  | cons u us ih =>
    have hu := h u (List.mem_cons_self u us)
    have ih2 := ih (fun v hv e => h v (List.mem_cons_of_mem u hv) e)
    cases hg : get_prediction net (pyStrip u) 5 with
    | ok t ts => simp [processUrls, hg, ih2]
    | predictFailed c => simp [processUrls, hg, ih2]
    | uncaught e => exact absurd hg (hu e)

/-- Under the same condition, the loop stages one document per
successful prediction. -/
theorem processUrls_docs_length (net : String → XplrHttp) (urls : List String)
    (h : NoUncaught net urls) :
    (processUrls net urls).docs.length = successCount net urls := by
  induction urls with
  | nil => rfl
  | cons u us ih =>
    have hu := h u (List.mem_cons_self u us)
    have ih2 := ih (fun v hv e => h v (List.mem_cons_of_mem u hv) e)
    cases hg : get_prediction net (pyStrip u) 5 with
    | ok t ts => simp [processUrls, successCount, List.filter, hg] at ih2 ⊢; omega
    | predictFailed c => simp [processUrls, successCount, List.filter, hg] at ih2 ⊢; omega
    | uncaught e => exact absurd hg (hu e)

/-- Extraction of one label per topic entry keeps the entry count. -/
theorem extractLabels_length (entries : List JVal) (labels : List String)
    (h : extractLabels entries = Except.ok labels) :
    labels.length = entries.length := by
  induction entries generalizing labels with
  | nil => simp [extractLabels] at h; simp [h]
  | cons t ts ih =>
    simp only [extractLabels] at h
    cases hl : extractLabelStr t with
    | error e => simp [hl, bind, Except.bind] at h
    | ok l =>
      cases hr : extractLabels ts with
      | error e => simp [hl, hr, bind, Except.bind] at h
      | ok ls =>
        simp [hl, hr, bind, Except.bind] at h
        subst h
        simp [ih ls hr]

/-! The claims. -/

/-- C1 (code bug): a non-flushed indexing run does not leave the prior
generation's documents in place. With a committed generation already in
the store and no flush requested, a run that stages no new document still
ends with an empty generation: `create_in` recreates the index
unconditionally, so prior documents are discarded even without a
flush. -/
theorem c1_nonflush_run_discards_prior_generation :
    (index net404 false false { indexDir := some [priorDoc] } ["http://a"]).store.indexDir =
      some [] ∧
    (index net404 false false { indexDir := some [priorDoc] } ["http://a"]).error = none ∧
    (some [] : Option (List Doc)) ≠ some [priorDoc] :=
  ⟨rfl, rfl, by decide⟩

/-- C3 counterexample: a response body that decodes as text but is not
valid JSON does not yield `PredictFailed` (so not cause `Encoding`
either); the `ValueError` raised by `json.loads` escapes
`get_prediction` uncaught. -/
theorem c3_invalid_json_escapes_uncaught :
    get_prediction (fun _ => XplrHttp.body JsonLoadResult.valueError) "http://a" 5 =
      PredResult.uncaught "ValueError: No JSON object could be decoded" ∧
    (get_prediction (fun _ => XplrHttp.body JsonLoadResult.valueError)
        "http://a" 5).raisesPredictFailed = false :=
  ⟨rfl, rfl⟩

/-- C3 (amended): only a response body whose bytes are not decodable as
text (`UnicodeDecodeError`) yields `PredictFailed` with cause `Encoding`;
a body that decodes as text but is not valid JSON raises a `ValueError`
that escapes `get_prediction`. -/
theorem c3_amended_encoding_only_for_undecodable_text
    (net : String → XplrHttp) (url : String) (n : Nat) :
    (net (mkRequestData n url) = XplrHttp.body JsonLoadResult.unicodeError →
      get_prediction net url n = PredResult.predictFailed PredFailCause.encoding) ∧
    (net (mkRequestData n url) = XplrHttp.body JsonLoadResult.valueError →
      get_prediction net url n =
        PredResult.uncaught "ValueError: No JSON object could be decoded") := by
  constructor <;> intro h <;> simp [get_prediction, h]

/-- Witness for the amended C3 at concrete networks. -/
theorem c3_witness_encoding_only :
    get_prediction (fun _ => XplrHttp.body JsonLoadResult.unicodeError) "http://a" 5 =
      PredResult.predictFailed PredFailCause.encoding ∧
    get_prediction (fun _ => XplrHttp.body JsonLoadResult.valueError) "http://a" 5 =
      PredResult.uncaught "ValueError: No JSON object could be decoded" :=
  ⟨(c3_amended_encoding_only_for_undecodable_text _ "http://a" 5).1 rfl,
   (c3_amended_encoding_only_for_undecodable_text _ "http://a" 5).2 rfl⟩

/-- C5 counterexample: with `topicsLimit = 5`, a well-formed code-200
response carrying six topic entries makes `get_prediction` return all six
first labels — the client does not truncate to the limit. -/
theorem c5_no_truncation_counterexample :
    get_prediction
      (fun _ => XplrHttp.body (JsonLoadResult.ok (mkResponse 200 "T"
        [mkEntry "l1", mkEntry "l2", mkEntry "l3", mkEntry "l4",
         mkEntry "l5", mkEntry "l6"]))) "http://a" 5 =
      PredResult.ok "T" ["l1", "l2", "l3", "l4", "l5", "l6"] ∧
    5 < (["l1", "l2", "l3", "l4", "l5", "l6"] : List String).length :=
  ⟨rfl, by decide⟩

set_option maxRecDepth 8000 in
/-- C9: the request body equals the fixed template with `topics_count`
and `url` substituted verbatim by string interpolation with no escaping;
for a URL containing a double-quote character the body is not valid JSON,
while a plain URL leaves it valid. -/
theorem c9_request_body_verbatim_interpolation :
    (∀ (n : Nat) (url : String),
      mkRequestData n url = dataPrefix ++ toString n ++ dataMid ++ url ++ dataSuffix) ∧
    '"' ∈ "http://x.com/a\"b".data ∧
    jsonValid (mkRequestData 5 "http://x.com/a\"b") = false ∧
    jsonValid (mkRequestData 5 "http://x.com/ab") = true :=
  ⟨fun _ _ => rfl, by decide, by decide, by decide⟩

/-- C2: for every per-URL outcome that is a success or a
`PredictFailed`, `index` commits the write session exactly once at the
end and no exception propagates; a `PredictFailed` URL is reported and
skipped, leaving the staged documents and the loop's fate unchanged; a
failure of `create_in` aborts with no commit and the store untouched; a
failure of `commit` propagates after the single commit attempt. -/
theorem c2_commit_on_every_exit_path
    (net : String → XplrHttp) (fs : FS) (urls pre post : List String)
    (u : String) (c : PredFailCause)
    (hn : NoUncaught net urls)
    (hpre : ∀ v ∈ pre, ∀ e, get_prediction net (pyStrip v) 5 ≠ .uncaught e)
    (hu : get_prediction net (pyStrip u) 5 = .predictFailed c) :
    ((index net false false fs urls).commits = 1 ∧
      (index net false false fs urls).error = none) ∧
    ((processUrls net (pre ++ u :: post)).docs = (processUrls net (pre ++ post)).docs ∧
      (processUrls net (pre ++ u :: post)).reported =
        (processUrls net pre).reported ++ c :: (processUrls net post).reported ∧
      (processUrls net (pre ++ u :: post)).err = (processUrls net (pre ++ post)).err) ∧
    ((index net true false fs urls).commits = 0 ∧
      (index net true false fs urls).error = some "create_in failed" ∧
      (index net true false fs urls).store = fs) ∧
    ((index net false true fs urls).commits = 1 ∧
      (index net false true fs urls).error = some "commit failed") := by
  have A := processUrls_append net pre (u :: post) hpre
  have B := processUrls_append net pre post hpre
  refine ⟨⟨rfl, processUrls_err_none net urls hn⟩, ⟨?_, ?_, ?_⟩,
    ⟨rfl, rfl, rfl⟩, ⟨rfl, rfl⟩⟩
  · rw [A, B]; simp [processUrls, hu]
  · rw [A]; simp [processUrls, hu]
  · rw [A, B]; simp [processUrls, hu]

/-- Witness for C2: one source URL failing with a transport error. -/
theorem c2_witness_commit_on_every_exit_path :
    (index net404 false false { indexDir := none } ["urlA"]).commits = 1 ∧
    (index net404 false false { indexDir := none } ["urlA"]).error = none ∧
    (processUrls net404 ["urlB"]).docs = (processUrls net404 []).docs ∧
    (index net404 true false { indexDir := none } ["urlA"]).commits = 0 :=
  have h := c2_commit_on_every_exit_path net404 { indexDir := none } ["urlA"] [] []
    "urlB" (.transport "HTTP Error 404: Not Found")
    (fun _ _ _ hh => PredResult.noConfusion hh)
    (fun v hv => absurd hv (List.not_mem_nil v))
    rfl
  ⟨h.1.1, h.1.2, h.2.1.1, h.2.2.1.1⟩

/-- C4: when the prediction for a URL succeeds with ordered labels, the
committed generation holds its document, whose stored `topics` field is
the labels joined with the literal `" / "` in predictor rank order, with
no case folding and no deduplication of repeated labels. -/
theorem c4_topics_joined_in_rank_order
    (net : String → XplrHttp) (fs : FS) (pre post : List String) (u title : String)
    (labels : List String)
    (hok : get_prediction net (pyStrip u) 5 = .ok title labels)
    (hpre : ∀ v ∈ pre, ∀ e, get_prediction net (pyStrip v) 5 ≠ .uncaught e) :
    (∃ A B, (index net false false fs (pre ++ u :: post)).store.indexDir =
        some (A ++ add_document (pyStrip u) title labels :: B)) ∧
    (add_document (pyStrip u) title labels).topics = String.intercalate " / " labels ∧
    (add_document "u" "t" ["Politics", "politics", "Politics"]).topics =
      "Politics / politics / Politics" := by
  refine ⟨⟨(processUrls net pre).docs, (processUrls net post).docs, ?_⟩, rfl, rfl⟩
  show some (processUrls net (pre ++ u :: post)).docs = _
  rw [processUrls_append net pre (u :: post) hpre]
  simp [processUrls, hok]

/-- Witness for C4: the spec's scenario document. -/
theorem c4_witness_topics_joined :
    (∃ A B, (index netGood false false { indexDir := none } ["urlA"]).store.indexDir =
        some (A ++ add_document (pyStrip "urlA") "Breaking News" ["Politics", "Economy"] :: B)) ∧
    (add_document (pyStrip "urlA") "Breaking News" ["Politics", "Economy"]).topics =
      String.intercalate " / " ["Politics", "Economy"] ∧
    (add_document "u" "t" ["Politics", "politics", "Politics"]).topics =
      "Politics / politics / Politics" :=
  c4_topics_joined_in_rank_order netGood { indexDir := none } [] [] "urlA"
    "Breaking News" ["Politics", "Economy"] rfl
    (fun v hv => absurd hv (List.not_mem_nil v))

/-- C5 (amended): for a well-formed predictor response, `get_prediction`
succeeds exactly when the embedded status code is 200, returning the
extracted title and the first (highest-rank) label of each topic entry in
topic order — one label per entry, however many entries the response
carries (no client-side truncation to the limit); any other code fails
with `PredictFailed (StatusCode code)`. -/
theorem c5_amended_status_and_first_labels
    (net : String → XplrHttp) (url t : String) (n : Nat) (c : Int)
    (entries : List JVal) (labels : List String)
    (hnet : net (mkRequestData n url) =
      XplrHttp.body (JsonLoadResult.ok (mkResponse c t entries)))
    (hl : extractLabels entries = Except.ok labels) :
    (c = 200 → get_prediction net url n = PredResult.ok t labels ∧
      labels.length = entries.length) ∧
    (c ≠ 200 → get_prediction net url n =
      PredResult.predictFailed (PredFailCause.statusCode (JVal.num c))) := by
  constructor
  · intro hc
    subst hc
    refine ⟨?_, extractLabels_length entries labels hl⟩
    simp [get_prediction, hnet, extractPrediction, mkResponse, JVal.getKey,
      List.lookup, bind, Except.bind, hl]
  · intro hc
    simp [get_prediction, hnet, extractPrediction, mkResponse, JVal.getKey,
      List.lookup, bind, Except.bind, hc]

/-- Witness for the amended C5: a 200 and a 403 response. -/
theorem c5_witness_status_and_first_labels :
    (get_prediction netGood "urlA" 5 =
        PredResult.ok "Breaking News" ["Politics", "Economy"] ∧
      (["Politics", "Economy"] : List String).length =
        ([mkEntry "Politics", mkEntry "Economy"] : List JVal).length) ∧
    get_prediction net403 "urlB" 5 =
      PredResult.predictFailed (PredFailCause.statusCode (JVal.num 403)) :=
  ⟨(c5_amended_status_and_first_labels netGood "urlA" "Breaking News" 5 200
      [mkEntry "Politics", mkEntry "Economy"] ["Politics", "Economy"] rfl rfl).1 rfl,
   (c5_amended_status_and_first_labels net403 "urlB" "Forbidden" 5 403 [] []
      rfl rfl).2 (by decide)⟩

/-- C6: when every URL's outcome is a success or a `PredictFailed`, the
run commits once with no propagating error and the new generation holds
exactly one document per successful prediction — also when none succeeds,
in which case the generation is empty and the store stays queryable. -/
theorem c6_exactly_m_documents
    (net : String → XplrHttp) (fs : FS) (urls : List String)
    (hn : NoUncaught net urls) :
    (index net false false fs urls).store.indexDir = some (processUrls net urls).docs ∧
    (processUrls net urls).docs.length = successCount net urls ∧
    (index net false false fs urls).commits = 1 ∧
    (index net false false fs urls).error = none ∧
    (successCount net urls = 0 →
      (index net false false fs urls).store.indexDir = some []) ∧
    (∀ (parseQ : String → Option (Doc → Bool)) (rank : List Doc → List Doc)
      (q : String) (hit : Doc → Bool), parseQ q = some hit →
        ∃ out, topicssearch parseQ rank (index net false false fs urls).store q =
          Except.ok out) := by
  have hlen := processUrls_docs_length net urls hn
  refine ⟨rfl, hlen, rfl, processUrls_err_none net urls hn, ?_, ?_⟩
  · intro h0
    have hz : (processUrls net urls).docs.length = 0 := by rw [hlen, h0]
    have hd : (processUrls net urls).docs = [] := List.length_eq_zero.mp hz
    show some (processUrls net urls).docs = some []
    rw [hd]
  · intro parseQ rank q hit hq
    refine ⟨(whooshSearch rank hit (processUrls net urls).docs none).map
      (fun d => (d.uri, d.title, d.topics)), ?_⟩
    show topicssearch parseQ rank { indexDir := some (processUrls net urls).docs } q = _
    simp [topicssearch, hq]

/-- Witness for C6: two URLs, zero successes; the session still commits
and the store is queryable and empty. -/
theorem c6_witness_exactly_m_documents :
    (index net404 false false { indexDir := none } ["urlA", "urlB"]).store.indexDir =
      some [] ∧
    (index net404 false false { indexDir := none } ["urlA", "urlB"]).commits = 1 ∧
    (index net404 false false { indexDir := none } ["urlA", "urlB"]).error = none ∧
    (∃ out, topicssearch parseNoneQ (fun l => l)
      (index net404 false false { indexDir := none } ["urlA", "urlB"]).store
      "sports" = Except.ok out) :=
  have h := c6_exactly_m_documents net404 { indexDir := none } ["urlA", "urlB"]
    (fun _ _ _ hh => PredResult.noConfusion hh)
  ⟨h.2.2.2.2.1 rfl, h.2.2.1, h.2.2.2.1,
   h.2.2.2.2.2 parseNoneQ (fun l => l) "sports" (fun _ => false) rfl⟩

/-- C7: a syntactically valid query against an existing store is
executed with no result-count limit and returns the finite list of
`(uri, title, topics)` tuples of the matches in the store's ranked order;
a valid query matching no document yields the empty list, not an
error. -/
theorem c7_search_unlimited_ranked_results
    (parseQ : String → Option (Doc → Bool)) (rank : List Doc → List Doc)
    (fs : FS) (docs : List Doc) (q : String) (hit : Doc → Bool)
    (hrank : ∀ l : List Doc, List.Perm (rank l) l)
    (hopen : fs.indexDir = some docs)
    (hq : parseQ q = some hit) :
    topicssearch parseQ rank fs q =
      Except.ok ((whooshSearch rank hit docs none).map
        (fun d => (d.uri, d.title, d.topics))) ∧
    (whooshSearch rank hit docs none).length = (docs.filter hit).length ∧
    ((∀ d ∈ docs, hit d = false) → topicssearch parseQ rank fs q = Except.ok []) := by
  obtain ⟨dir⟩ := fs
  simp only [FS.indexDir] at hopen
  subst hopen
  refine ⟨by simp [topicssearch, hq], ?_, ?_⟩
  · show (rank (docs.filter hit)).length = _
    exact (hrank (docs.filter hit)).length_eq
  · intro hnone
    have hfil : docs.filter hit = [] :=
      List.filter_eq_nil_iff.mpr (fun d hd => by simp [hnone d hd])
    have hr : rank [] = [] := (hrank []).eq_nil
    simp [topicssearch, hq, whooshSearch, hfil, hr]

/-- Witness for C7: a valid query matching nothing on a one-document
store yields the empty list. -/
theorem c7_witness_search_empty_not_error :
    topicssearch parseNoneQ (fun l => l) { indexDir := some [priorDoc] } "sports" =
      Except.ok ((whooshSearch (fun l => l) (fun _ => false) [priorDoc] none).map
        (fun d => (d.uri, d.title, d.topics))) ∧
    topicssearch parseNoneQ (fun l => l) { indexDir := some [priorDoc] } "sports" =
      Except.ok [] :=
  have h := c7_search_unlimited_ranked_results parseNoneQ (fun l => l)
    { indexDir := some [priorDoc] } [priorDoc] "sports" (fun _ => false)
    (fun l => List.Perm.refl l) rfl rfl
  ⟨h.1, h.2.2 (fun _ _ => rfl)⟩

/-- C8: with no pre-existing index directory, `flush` succeeds silently —
the `OSError` of `rmtree` is swallowed and the state is returned
unchanged — and an indexing run afterwards proceeds normally: it commits
once, propagates nothing, and installs the new generation. -/
theorem c8_flush_missing_directory_silent
    (fs : FS) (net : String → XplrHttp) (urls : List String)
    (hmiss : fs.indexDir = none)
    (hn : NoUncaught net urls) :
    flush fs = fs ∧
    rmtree fs = Except.error "OSError: no such file or directory" ∧
    (index net false false (flush fs) urls).commits = 1 ∧
    (index net false false (flush fs) urls).error = none ∧
    (index net false false (flush fs) urls).store.indexDir =
      some (processUrls net urls).docs := by
  obtain ⟨dir⟩ := fs
  simp only [FS.indexDir] at hmiss
  subst hmiss
  exact ⟨rfl, rfl, rfl, processUrls_err_none net urls hn, rfl⟩

/-- Witness for C8 on the empty filesystem. -/
theorem c8_witness_flush_missing_directory :
    flush { indexDir := (none : Option (List Doc)) } = { indexDir := none } ∧
    (index net404 false false (flush { indexDir := none }) ["urlA"]).commits = 1 ∧
    (index net404 false false (flush { indexDir := none }) ["urlA"]).error = none :=
  have h := c8_flush_missing_directory_silent { indexDir := none } net404 ["urlA"]
    rfl (fun _ _ _ hh => PredResult.noConfusion hh)
  ⟨h.1, h.2.2.1, h.2.2.2.1⟩

/-- C10: the per-URL handler catches only `PredictFailed`; any other
exception — such as the `KeyError` of a code-200 response missing the
`topics` field — escapes the loop and aborts the session, while the
`finally` clause still commits the write session (with the documents
staged before the failure) before the exception propagates. -/
theorem c10_only_predictfailed_caught
    (net : String → XplrHttp) (fs : FS) (pre post : List String) (u e : String)
    (hu : get_prediction net (pyStrip u) 5 = .uncaught e)
    (hpre : ∀ v ∈ pre, ∀ e2, get_prediction net (pyStrip v) 5 ≠ .uncaught e2) :
    (index net false false fs (pre ++ u :: post)).commits = 1 ∧
    (index net false false fs (pre ++ u :: post)).error = some e ∧
    (index net false false fs (pre ++ u :: post)).store.indexDir =
      some (processUrls net pre).docs ∧
    get_prediction netMissingTopics "http://a" 5 = .uncaught "KeyError: topics" := by
  have A := processUrls_append net pre (u :: post) hpre
  refine ⟨rfl, ?_, ?_, rfl⟩
  · show (processUrls net (pre ++ u :: post)).err = some e
    rw [A]; simp [processUrls, hu]
  · show some (processUrls net (pre ++ u :: post)).docs = _
    rw [A]; simp [processUrls, hu]

/-- Witness for C10: a malformed 200 response aborts the session after
the commit. -/
theorem c10_witness_only_predictfailed_caught :
    (index netMissingTopics false false { indexDir := none } ["http://a"]).commits = 1 ∧
    (index netMissingTopics false false { indexDir := none } ["http://a"]).error =
      some "KeyError: topics" :=
  have h := c10_only_predictfailed_caught netMissingTopics { indexDir := none }
    [] [] "http://a" "KeyError: topics" rfl
    (fun v hv => absurd hv (List.not_mem_nil v))
  ⟨h.1, h.2.1⟩

end TopicsSearch
